import Mathlib

/-!
Verification of the Konzum unit-price sorter content script (`src/content.js`).

The script is a DOM-manipulating browser extension; we embed its logic
shallowly:

* pure text processing (`parseUnitPrice`, pagination-text scanning) is
  translated directly over `String` / `List Char`; the extractor returns
  a `JsNum` — a finite value kept as an exact rational, or `+Infinity`
  when the token crosses the IEEE-754 binary64 overflow threshold — while
  the sorting pipeline keeps prices as `ℚ` (it only subtracts and
  compares them);
* the DOM is modelled as explicit state (`CardState`, `SysState`, `Env`):
  a card records exactly the pieces of per-element state the script reads
  or writes (its extractable unit price, its `konzum-*` classes, the
  `data-sort-order` / `data-unit-price` attributes and the inline
  `order` style);
* `Array.prototype.sort(comparator)` (stable since ES2019) is embedded as
  `List.mergeSort le` with `le a b := comparator a b ≤ 0`;
* side effects (alerts, notifications, network fetches, installing the
  maintainer interval / mutation observer) are returned in an explicit
  `RunLog`.

All definitions are computable, so every theorem can be exercised on
concrete inputs.
-/

namespace Konzum

/-! ## Price extractor (`parseUnitPrice`, content.js lines 27–37)

JS: `priceText.match(/(\d+[,.]?\d*)/)`, then
`parseFloat(match[1].replace(',', '.'))`, `null` on no match / NaN.

The regex greedily takes the maximal digit run starting at the first
digit of the string, then at most one `,` or `.`, then a maximal digit
run.  Since the token always begins with a digit, `parseFloat` never
yields NaN; its value is the decimal number `intPart.fracPart`.
-/

/-- Numeric value of a digit list read most-significant first
(the semantics of `parseInt` / the integer part of `parseFloat`). -/
def digitsToNat (ds : List Char) : Nat :=
  ds.foldl (fun acc c => 10 * acc + (c.toNat - '0'.toNat)) 0

/-- Value of the fractional-digit list `ds` after a decimal point. -/
def fracVal (ds : List Char) : ℚ :=
  (digitsToNat ds : ℚ) / (10 : ℚ) ^ ds.length

/-- First match of the regex `\d+[,.]?\d*`: the maximal digit run starting
at the first digit, an optional single `,`/`.` separator, and the digit
run after it.  Returns (integer digits, separator present?, fraction
digits), or `none` when the text has no digit. -/
def matchNumToken : List Char → Option (List Char × Option Char × List Char)
  | [] => none
  | c :: rest =>
    if c.isDigit then
      let d1 := (c :: rest).takeWhile Char.isDigit
      let r1 := (c :: rest).dropWhile Char.isDigit
      match r1 with
      | s :: r2 =>
        if s = ',' ∨ s = '.' then some (d1, some s, r2.takeWhile Char.isDigit)
        else some (d1, none, [])
      | [] => some (d1, none, [])
    else matchNumToken rest

/-- A value `parseFloat` can return for a matched numeric token: a
finite number or `+Infinity`.  Finite values are kept as exact rationals
(value-preserving for the orderings and the samples proved here); the
finite/overflow classification is exact: IEEE-754 binary64
round-to-nearest sends every magnitude at or above `2^1024 − 2^970` to
`+Infinity` and every smaller one to a finite double.  `NaN` is
impossible for a token that starts with a digit, and the token has no
sign, so `-Infinity` is impossible too. -/
inductive JsNum where
  | finite (val : ℚ)
  | inf
  deriving DecidableEq, Repr

/-- The IEEE-754 binary64 overflow threshold `2^1024 − 2^970`: the
smallest magnitude that round-to-nearest turns into `+Infinity`.  Tokens
of 309 digits can stay below it; every 310-digit token exceeds it. -/
def overflowThreshold : ℚ := ((2 ^ 1024 - 2 ^ 970 : ℕ) : ℚ)

/-- `parseFloat` on the matched token `d1 [sep] d2` (comma already
normalised): the decimal value `d1.d2`, overflowing to `+Infinity` at the
binary64 threshold. -/
def parseFloatTok (d1 d2 : List Char) : JsNum :=
  if overflowThreshold ≤ (digitsToNat d1 : ℚ) + fracVal d2 then JsNum.inf
  else JsNum.finite ((digitsToNat d1 : ℚ) + fracVal d2)

/-- `parseUnitPrice` (content.js 27–37).  Empty text is falsy → `null`;
otherwise first `\d+[,.]?\d*` token, comma normalised to dot, parsed by
`parseFloat`.  The token starts with a digit so the parse never yields
NaN, hence the `isNaN` guard never fires on a matched token — in
particular an overflowed `+Infinity` passes the guard and is returned. -/
def parseUnitPrice (priceText : String) : Option JsNum :=
  if priceText = "" then none
  else
    match matchNumToken priceText.data with
    | none => none
    | some (d1, _, d2) => some (parseFloatTok d1 d2)

/-- A 310-digit numeric token: 1 followed by 309 zeros, of value
`10^309`, above the binary64 overflow threshold. -/
def overflowToken : List Char := '1' :: List.replicate 309 '0'

/-! ## Local sort step (`sortByUnitPrice`, content.js 495–502)

The products array holds `{element, unitPrice, originalIndex}`.  The
comparator sends price-less products after priced ones and compares
priced ones numerically per the direction flag. -/

/-- A product record as built at content.js 470–482: the DOM element is
identified by its discovery index. -/
structure LProd where
  originalIndex : Nat
  unitPrice : Option ℚ
  deriving DecidableEq, Repr

/-- `comparator a b ≤ 0` for the local comparator (content.js 495–502):
`null`s compare equal to each other and greater than any price; priced
items compare by `a−b` (ascending) or `b−a` (descending). -/
def localLe (ascending : Bool) (a b : LProd) : Bool :=
  match a.unitPrice, b.unitPrice with
  | none, none => true
  | none, some _ => false
  | some _, none => true
  | some x, some y => if ascending then decide (x ≤ y) else decide (y ≤ x)

/-- The sort step of `sortByUnitPrice`: the stable JS `Array.prototype.sort`
with the comparator of content.js 495–502. -/
def sortProducts (ascending : Bool) (l : List LProd) : List LProd :=
  l.mergeSort (localLe ascending)

theorem localLe_trans (ascending : Bool) :
    ∀ a b c : LProd, localLe ascending a b → localLe ascending b c →
      localLe ascending a c := by
  intro a b c hab hbc
  rcases a with ⟨i, _ | x⟩ <;> rcases b with ⟨j, _ | y⟩ <;>
      rcases c with ⟨k, _ | z⟩ <;>
    simp only [localLe] at hab hbc ⊢ <;>
    first
      | rfl
      | exact (Bool.false_ne_true hab).elim
      | exact (Bool.false_ne_true hbc).elim
      | (cases ascending <;> simp_all <;> linarith)

theorem localLe_total (ascending : Bool) :
    ∀ a b : LProd, localLe ascending a b || localLe ascending b a := by
  intro a b
  rcases a with ⟨i, _ | x⟩ <;> rcases b with ⟨j, _ | y⟩ <;>
    simp only [localLe] <;> cases ascending <;> simp <;>
    exact le_total _ _

end Konzum

namespace Konzum

/-- Evaluation of the sort step on the sample list
`[null, 0.5, null, 0.2]`, ascending (used by witnesses). -/
theorem sortProducts_sample_eval :
    sortProducts true
        [⟨0, none⟩, ⟨1, some (1/2)⟩, ⟨2, none⟩, ⟨3, some (1/5)⟩] =
      [⟨3, some (1/5)⟩, ⟨1, some (1/2)⟩, ⟨0, none⟩, ⟨2, none⟩] := by
  norm_num [sortProducts, List.mergeSort, List.merge, localLe]

end Konzum

/-- C1: for every input list and both directions, the local sort step
preserves length, and in its output every item whose extracted unit price
is `null` appears after every item with a non-null price: at any pair of
output positions `i < j`, if position `i` holds a price-less item then so
does position `j`. -/
theorem C1_sort_length_and_null_placement
    (ascending : Bool) (l : List Konzum.LProd) :
    (Konzum.sortProducts ascending l).length = l.length ∧
    ∀ (i j : Nat) (a b : Konzum.LProd), i < j →
      (Konzum.sortProducts ascending l)[i]? = some a →
      (Konzum.sortProducts ascending l)[j]? = some b →
      a.unitPrice = none → b.unitPrice = none := by
  constructor
  · exact List.length_mergeSort l
  · have hpw : (Konzum.sortProducts ascending l).Pairwise
        (fun a b => Konzum.localLe ascending a b) :=
      List.sorted_mergeSort (Konzum.localLe_trans ascending)
        (Konzum.localLe_total ascending) l
    rw [List.pairwise_iff_getElem] at hpw
    intro i j a b hij ha hb hnone
    rw [List.getElem?_eq_some_iff] at ha hb
    obtain ⟨hi, ha⟩ := ha
    obtain ⟨hj, hb⟩ := hb
    have h := hpw i j hi hj hij
    rw [ha, hb] at h
    rcases hcase : b.unitPrice with - | y
    · rfl
    · exfalso
      rw [Konzum.localLe, hnone, hcase] at h
      simp at h

/-- C1 witness: concrete run on `[null, 0.5, null, 0.2]` ascending;
positions 2 < 3 hold `⟨0, none⟩` and `⟨2, none⟩`. -/
theorem C1_sort_length_and_null_placement_witness :
    (Konzum.sortProducts true
      [⟨0, none⟩, ⟨1, some (1/2)⟩, ⟨2, none⟩, ⟨3, some (1/5)⟩]).length = 4 ∧
    (⟨2, none⟩ : Konzum.LProd).unitPrice = none := by
  have h := C1_sort_length_and_null_placement true
    [⟨0, none⟩, ⟨1, some (1/2)⟩, ⟨2, none⟩, ⟨3, some (1/5)⟩]
  refine ⟨by rw [h.1]; rfl, ?_⟩
  exact h.2 2 3 ⟨0, none⟩ ⟨2, none⟩ (by decide)
    (by rw [Konzum.sortProducts_sample_eval]; rfl)
    (by rw [Konzum.sortProducts_sample_eval]; rfl)
    rfl

/-- C2: in the local sort step's output, the sub-sequence of items with a
non-null price is monotonic in price: non-decreasing when the direction
flag is ascending, non-increasing when it is descending. -/
theorem C2_with_price_subsequence_monotone
    (ascending : Bool) (l : List Konzum.LProd)
    (i j : Nat) (a b : Konzum.LProd) (pa pb : ℚ) :
    i < j →
    ((Konzum.sortProducts ascending l).filter
        (fun p => p.unitPrice.isSome))[i]? = some a →
    ((Konzum.sortProducts ascending l).filter
        (fun p => p.unitPrice.isSome))[j]? = some b →
    a.unitPrice = some pa → b.unitPrice = some pb →
    (ascending = true → pa ≤ pb) ∧ (ascending = false → pb ≤ pa) := by
  intro hij ha hb hpa hpb
  have hpw : (Konzum.sortProducts ascending l).Pairwise
      (fun a b => Konzum.localLe ascending a b) :=
    List.sorted_mergeSort (Konzum.localLe_trans ascending)
      (Konzum.localLe_total ascending) l
  have hpwf : ((Konzum.sortProducts ascending l).filter
      (fun p => p.unitPrice.isSome)).Pairwise
      (fun a b => Konzum.localLe ascending a b) :=
    hpw.sublist (List.filter_sublist _)
  rw [List.pairwise_iff_getElem] at hpwf
  rw [List.getElem?_eq_some_iff] at ha hb
  obtain ⟨hi, ha⟩ := ha
  obtain ⟨hj, hb⟩ := hb
  have h := hpwf i j hi hj hij
  rw [ha, hb, Konzum.localLe, hpa, hpb] at h
  cases ascending <;> simp_all

/-- C2 witness: on `[null, 0.5, null, 0.2]` ascending, the with-price
sub-sequence holds 0.2 at position 0 and 0.5 at position 1. -/
theorem C2_with_price_subsequence_monotone_witness :
    (true = true → (1/5 : ℚ) ≤ 1/2) ∧ (true = false → (1/2 : ℚ) ≤ 1/5) := by
  have h := C2_with_price_subsequence_monotone true
    [⟨0, none⟩, ⟨1, some (1/2)⟩, ⟨2, none⟩, ⟨3, some (1/5)⟩]
    0 1 ⟨3, some (1/5)⟩ ⟨1, some (1/2)⟩ (1/5) (1/2)
    (by decide)
    (by rw [Konzum.sortProducts_sample_eval]; rfl)
    (by rw [Konzum.sortProducts_sample_eval]; rfl)
    rfl rfl
  exact h

namespace Konzum

/-- Evaluation of the extractor on the comma-separated sample. -/
theorem parseUnitPrice_comma_eval :
    parseUnitPrice "0,41 €/kom" = some (JsNum.finite (41/100)) := by
  rw [parseUnitPrice, if_neg (by decide : ¬("0,41 €/kom" = "")),
    show matchNumToken "0,41 €/kom".data
      = some (['0'], some ',', ['4', '1']) from by decide]
  norm_num [parseFloatTok, digitsToNat, fracVal, overflowThreshold,
    show '4'.toNat - '0'.toNat = 4 from by decide,
    show '1'.toNat - '0'.toNat = 1 from by decide,
    show '0'.toNat - '0'.toNat = 0 from by decide]

/-- Evaluation of the extractor on the dot-separated sample. -/
theorem parseUnitPrice_dot_eval :
    parseUnitPrice "0.41 €/kom" = some (JsNum.finite (41/100)) := by
  rw [parseUnitPrice, if_neg (by decide : ¬("0.41 €/kom" = "")),
    show matchNumToken "0.41 €/kom".data
      = some (['0'], some '.', ['4', '1']) from by decide]
  norm_num [parseFloatTok, digitsToNat, fracVal, overflowThreshold,
    show '4'.toNat - '0'.toNat = 4 from by decide,
    show '1'.toNat - '0'.toNat = 1 from by decide,
    show '0'.toNat - '0'.toNat = 0 from by decide]

set_option maxRecDepth 4000 in
set_option exponentiation.threshold 400 in
/-- The 310-digit token evaluates to `10^309`. -/
theorem digitsToNat_overflowToken : digitsToNat overflowToken = 10 ^ 309 := by
  decide

set_option maxRecDepth 4000 in
/-- The regex matches the whole 310-digit token, no separator. -/
theorem matchNumToken_overflowToken :
    matchNumToken overflowToken = some (overflowToken, none, []) := by
  decide

end Konzum

/-- C4 counterexample: on the 310-digit input `"1" ++ 309 × "0"` the
extractor returns `+Infinity` — `parseFloat` of the token `10^309`
overflows binary64 and the `isNaN` guard lets `Infinity` through
(content.js 36) — so the output is neither null nor a finite number,
refuting the claim that every text input yields a non-negative finite
number or null. -/
theorem C4_counterexample_parseFloat_overflow :
    Konzum.parseUnitPrice (String.mk Konzum.overflowToken)
      = some Konzum.JsNum.inf ∧
    ∀ q : ℚ, Konzum.JsNum.inf ≠ Konzum.JsNum.finite q := by
  constructor
  · rw [Konzum.parseUnitPrice,
      if_neg (by decide : ¬(String.mk Konzum.overflowToken = "")),
      show Konzum.matchNumToken (String.mk Konzum.overflowToken).data
        = some (Konzum.overflowToken, none, []) from
        Konzum.matchNumToken_overflowToken]
    have hge : Konzum.overflowThreshold ≤
        (Konzum.digitsToNat Konzum.overflowToken : ℚ) + Konzum.fracVal [] := by
      rw [Konzum.digitsToNat_overflowToken]
      norm_num [Konzum.fracVal, Konzum.digitsToNat, Konzum.overflowThreshold]
    simp only [Konzum.parseFloatTok, if_pos hge]
  · intro q h
    cases h

/-- C4 (amended): for every text input the price extractor returns null
or a non-negative JS number, and never throws (it is a total function);
every finite result is non-negative, but a large enough token (310
digits or more) overflows `parseFloat` to `+Infinity`, which the `isNaN`
guard does not filter out; the inputs `"0,41 €/kom"` and `"0.41 €/kom"`
both parse to the same finite value 0.41. -/
theorem C4_parseUnitPrice_nonneg_and_separator_agnostic :
    (∀ (s : String) (q : ℚ),
      Konzum.parseUnitPrice s = some (Konzum.JsNum.finite q) → 0 ≤ q) ∧
    Konzum.parseUnitPrice "0,41 €/kom"
      = some (Konzum.JsNum.finite (41/100)) ∧
    Konzum.parseUnitPrice "0.41 €/kom"
      = some (Konzum.JsNum.finite (41/100)) := by
  refine ⟨?_, Konzum.parseUnitPrice_comma_eval, Konzum.parseUnitPrice_dot_eval⟩
  intro s q h
  rw [Konzum.parseUnitPrice] at h
  split at h
  · exact absurd h (by simp)
  · rcases hm : Konzum.matchNumToken s.data with - | ⟨d1, sep, d2⟩
    · rw [hm] at h; exact absurd h (by simp)
    · rw [hm] at h
      simp only [Option.some.injEq] at h
      rw [Konzum.parseFloatTok] at h
      split at h
      · exact absurd h (by simp)
      · injection h with hq
        rw [← hq]
        have h1 : (0 : ℚ) ≤ (Konzum.digitsToNat d1 : ℚ) := by positivity
        have h2 : (0 : ℚ) ≤ Konzum.fracVal d2 := by
          rw [Konzum.fracVal]; positivity
        linarith

/-- C4 witness: both sample inputs parse to the finite 0.41, which is
non-negative. -/
theorem C4_parseUnitPrice_nonneg_and_separator_agnostic_witness :
    Konzum.parseUnitPrice "0,41 €/kom"
      = some (Konzum.JsNum.finite (41/100)) ∧
    Konzum.parseUnitPrice "0.41 €/kom"
      = some (Konzum.JsNum.finite (41/100)) ∧
    (0 : ℚ) ≤ 41/100 := by
  have h := C4_parseUnitPrice_nonneg_and_separator_agnostic
  exact ⟨h.2.1, h.2.2, h.1 "0,41 €/kom" (41/100) h.2.1⟩

namespace Konzum

/-! ## DOM state model

`sortByUnitPrice` (content.js 413–559) mutates per-card classes,
attributes and inline styles, installs a maintainer interval and a
mutation observer (content.js 582–657), and records the live sort in
`currentSortState` (content.js 208).  We model exactly the pieces of
browser state the script reads or writes. -/

/-- `currentSortState` (content.js 208/303/417): direction and scope of
the one live sort. -/
structure SortIntent where
  ascending : Bool
  global : Bool
  deriving DecidableEq, Repr

/-- The per-element state the script touches on one product card. -/
structure CardState where
  /-- the price extractable from the card's text (`extractUnitPrice`) -/
  unitPrice : Option ℚ
  /-- whether `card.parentElement === container` (content.js 518) -/
  directChild : Bool
  /-- membership of the `konzum-sorted` class (content.js 528) -/
  konzumSorted : Bool
  /-- the `konzum-sort-<n>` class, if any (content.js 526–527) -/
  konzumSortClass : Option Nat
  /-- the inline `order` style set with `!important` (content.js 531) -/
  inlineOrder : Option Nat
  /-- the `data-sort-order` attribute (content.js 534) -/
  dataSortOrder : Option Nat
  /-- the `data-unit-price` attribute (content.js 535): `some v` once set,
  where `v = none` stands for the string `'none'` (used when
  `product.unitPrice || 'none'` sees a falsy price, i.e. `null` or `0`). -/
  dataUnitPrice : Option (Option ℚ)
  deriving DecidableEq, Repr

/-- The page-level state the local sorter and its maintainers touch. -/
structure SysState where
  /-- `currentSortState` (content.js 208) -/
  currentSortState : Option SortIntent
  /-- `sortMaintainerInterval` is live (content.js 579/619) -/
  maintainerInterval : Bool
  /-- `containerObserver` is connected (content.js 580/594) -/
  containerObserver : Bool
  /-- the `#konzum-sort-styles` tag is in the head (content.js 562–576) -/
  styleTagPresent : Bool
  /-- `cards[0].parentElement` exists (content.js 429) -/
  containerPresent : Bool
  /-- a `.product-list` container exists (content.js 387) -/
  productListPresent : Bool
  /-- pagination controls hidden by `hidePagination` (content.js 361–367) -/
  paginationHidden : Bool
  /-- the product cards in DOM (discovery) order; the local sorter never
  moves them, it only rewrites their classes/attributes/styles -/
  cards : List CardState
  deriving DecidableEq, Repr

/-- The externally visible effects of one sorter invocation. -/
structure RunLog where
  /-- `alert(...)` messages (content.js 422, 331) -/
  alerts : List String
  /-- `showNotification(...)` messages -/
  notifications : List String
  /-- whether this call ran `setupSortMaintainer` (content.js 551) -/
  installedWatch : Bool
  /-- number of network `fetch` calls performed -/
  fetches : Nat
  deriving DecidableEq, Repr

/-- The products array of content.js 470–482, keyed by discovery index. -/
def toProducts (cards : List CardState) : List LProd :=
  (cards.map (·.unitPrice)).enum.map fun p => ⟨p.1, p.2⟩

/-- Rank (the `newIndex` of content.js 507) of the card with discovery
index `i`: its position in the sorted products array. -/
def rankOf (ascending : Bool) (cards : List CardState) (i : Nat) : Nat :=
  ((sortProducts ascending (toProducts cards)).map (·.originalIndex)).indexOf i

/-- The per-card writes of content.js 525–535 for rank `r`. -/
def markCard (c : CardState) (r : Nat) : CardState :=
  { c with konzumSorted := true, konzumSortClass := some r,
           inlineOrder := some r, dataSortOrder := some r,
           dataUnitPrice := some (match c.unitPrice with
             | some p => if p = 0 then none else some p
             | none => none) }

/-- The marking loop of content.js 507–543: each card that is a direct
child of the container receives its rank; other cards are skipped with a
logged warning. -/
def applyRanksAux (rank : Nat → Nat) : Nat → List CardState → List CardState
  | _, [] => []
  | i, c :: cs =>
    (if c.directChild then markCard c (rank i) else c) ::
      applyRanksAux rank (i + 1) cs

def applyRanks (ascending : Bool) (cards : List CardState) :
    List CardState :=
  applyRanksAux (rankOf ascending cards) 0 cards

/-- `sortByUnitPrice` (content.js 413–559) as a state transformer.  It
first records the sort intent, alerts and stops on an empty card set,
stops silently on a missing container, and otherwise assigns ranks,
injects the style tag and installs the maintainer interval and the
container observer (`setupSortMaintainer`). -/
def sortByUnitPrice (s : SysState) (ascending : Bool) :
    SysState × RunLog :=
  let s1 := { s with currentSortState := some ⟨ascending, false⟩ }
  if s1.cards = [] then
    (s1, ⟨["Nije pronađeno proizvoda za sortiranje. Osvježite stranicu i pokušajte ponovno."],
          [], false, 0⟩)
  else if ¬ s1.containerPresent then
    (s1, ⟨[], [], false, 0⟩)
  else
    ({ s1 with cards := applyRanks ascending s1.cards,
               styleTagPresent := true,
               maintainerInterval := true,
               containerObserver := true },
     ⟨[], [if ascending then
             "Sortirano po cijeni za j.m.: najniža → najviša"
           else
             "Sortirano po cijeni za j.m.: najviša → najniža"],
      true, 0⟩)

theorem applyRanksAux_unitPrice (rank : Nat → Nat) :
    ∀ (i : Nat) (cards : List CardState),
      (applyRanksAux rank i cards).map (·.unitPrice) =
        cards.map (·.unitPrice) := by
  intro i cards
  induction cards generalizing i with
  | nil => rfl
  | cons c cs ih =>
    simp only [applyRanksAux, List.map_cons, ih]
    by_cases hd : c.directChild <;> simp [hd, markCard]

theorem applyRanksAux_directChild (rank : Nat → Nat) :
    ∀ (i : Nat) (cards : List CardState),
      (applyRanksAux rank i cards).map (·.directChild) =
        cards.map (·.directChild) := by
  intro i cards
  induction cards generalizing i with
  | nil => rfl
  | cons c cs ih =>
    simp only [applyRanksAux, List.map_cons, ih]
    by_cases hd : c.directChild <;> simp [hd, markCard]

theorem applyRanks_unitPrice (ascending : Bool) (cards : List CardState) :
    (applyRanks ascending cards).map (·.unitPrice) =
      cards.map (·.unitPrice) :=
  applyRanksAux_unitPrice _ 0 cards

theorem toProducts_applyRanks (ascending : Bool) (cards : List CardState) :
    toProducts (applyRanks ascending cards) = toProducts cards := by
  rw [toProducts, toProducts, applyRanks_unitPrice]

theorem rankOf_applyRanks (ascending : Bool) (cards : List CardState) :
    rankOf ascending (applyRanks ascending cards) = rankOf ascending cards := by
  funext i
  rw [rankOf, rankOf, toProducts_applyRanks]

theorem markCard_markCard (c : CardState) (r : Nat) :
    markCard (markCard c r) r = markCard c r := by
  rfl

theorem applyRanksAux_applyRanksAux (rank : Nat → Nat) :
    ∀ (i : Nat) (cards : List CardState),
      applyRanksAux rank i (applyRanksAux rank i cards) =
        applyRanksAux rank i cards := by
  intro i cards
  induction cards generalizing i with
  | nil => rfl
  | cons c cs ih =>
    by_cases hd : c.directChild <;>
      simp [applyRanksAux, hd, markCard, ih]

theorem applyRanks_applyRanks (ascending : Bool) (cards : List CardState) :
    applyRanks ascending (applyRanks ascending cards) =
      applyRanks ascending cards := by
  rw [applyRanks, rankOf_applyRanks, applyRanks]
  exact applyRanksAux_applyRanksAux _ 0 cards

theorem applyRanksAux_length (rank : Nat → Nat) :
    ∀ (i : Nat) (cards : List CardState),
      (applyRanksAux rank i cards).length = cards.length := by
  intro i cards
  induction cards generalizing i with
  | nil => rfl
  | cons c cs ih => simp [applyRanksAux, ih]

theorem applyRanks_eq_nil_iff (ascending : Bool) (cards : List CardState) :
    applyRanks ascending cards = [] ↔ cards = [] := by
  constructor
  · intro h
    have := applyRanksAux_length (rankOf ascending cards) 0 cards
    rw [applyRanks] at h
    rw [h] at this
    exact List.length_eq_zero.mp this.symm
  · intro h; rw [h]; rfl

end Konzum

namespace Konzum

/-! ## Item locator (`getProductCards`, content.js 74–168)

The function tries five strategies against the host DOM.  We model the
DOM by the results of the queries the function issues; the upward walk
from product links (content.js 95–130) is abstracted by its outcome, the
deduplicated list of candidate containers. -/

structure Dom where
  /-- `article.product-item` matches (content.js 78) -/
  articleProductItems : List CardState
  /-- `.product-item, .product-card` matches (content.js 85) -/
  altItems : List CardState
  /-- deduplicated card containers reached by walking up from
  `a[href*="/web/products/"]` links (content.js 92–130) -/
  linkDerivedCards : List CardState
  /-- for each of the seven fallback selectors in order (content.js
  133–141): its matches, and whether the first match's text contains `€`
  or `Cijena` -/
  selectorResults : List (List CardState × Bool)
  /-- for each grid/list/results container (content.js 155): its children,
  and whether the first child's text contains `€` -/
  containerResults : List (List CardState × Bool)
  deriving DecidableEq, Repr

/-- `getProductCards` (content.js 74–168): first strategy that meets its
plausibility guard wins; an empty list is returned when every strategy
fails, with no exception thrown (the function is total). -/
def getProductCards (d : Dom) : List CardState :=
  if d.articleProductItems.length > 3 then d.articleProductItems
  else if d.altItems.length > 3 then d.altItems
  else if d.linkDerivedCards ≠ [] then d.linkDerivedCards
  else
    match d.selectorResults.find? (fun r => decide (r.1.length > 0) && r.2) with
    | some r => r.1
    | none =>
      match d.containerResults.find? (fun r => decide (r.1.length > 3) && r.2) with
      | some r => r.1
      | none => []

/-! ## Clearing the sort intent (content.js 797–816)

When the dropdown changes to a non-custom value, `handleChange` clears
`currentSortState`, cancels `sortMaintainerInterval`, and strips the
`konzum-sorted` / `konzum-sort-*` classes from the previously sorted
cards.  It does not disconnect `containerObserver`, does not remove the
injected `#konzum-sort-styles` tag, and does not touch the `data-*`
attributes or the inline `order` styles. -/

def clearSortSelection (s : SysState) : SysState :=
  { s with currentSortState := none,
           maintainerInterval := false,
           cards := s.cards.map fun c =>
             if c.konzumSorted then
               { c with konzumSorted := false, konzumSortClass := none }
             else c }

/-! ## Drift monitors (content.js 582–657) -/

/-- One firing of the `containerObserver` child-list callback
(content.js 594–610): a no-op unless the observer is connected and a
sort intent is live; otherwise the debounced re-sort runs. -/
def observerFire (s : SysState) : SysState :=
  if ¬ s.containerObserver then s
  else
    match s.currentSortState with
    | none => s
    | some st => (sortByUnitPrice s st.ascending).1

/-- The computed `order` of a card: the inline `!important` declaration
wins; otherwise the injected `.konzum-sort-<n>` rule applies while the
style tag is present. -/
def computedOrder (styleTagPresent : Bool) (c : CardState) : Option Nat :=
  match c.inlineOrder with
  | some n => some n
  | none => if styleTagPresent then c.konzumSortClass else none

/-- One tick of `sortMaintainerInterval` (content.js 619–654): a no-op
without a live sort intent; otherwise re-sorts when some card's computed
order disagrees with its `data-sort-order`, when a `konzum-sorted` card
lost the attribute, or when any card lacks the attribute. -/
def maintainerTick (s : SysState) : SysState :=
  if ¬ s.maintainerInterval then s
  else
    match s.currentSortState with
    | none => s
    | some st =>
      if s.cards = [] then s
      else
        let lost := s.cards.any fun c =>
          match c.dataSortOrder with
          | some r => decide (computedOrder s.styleTagPresent c ≠ some r)
          | none => c.konzumSorted
        let unsorted := s.cards.any fun c => c.dataSortOrder = none
        if lost || unsorted then (sortByUnitPrice s st.ascending).1 else s

/-! ## Global sort (content.js 217–358)

`sortByUnitPriceGlobally` checks the pagination links, degrades to the
local sort when none carries a pure-integer text, and otherwise fetches
every page, aggregates all products, partitions by price presence, sorts
the priced partition, and replaces the current page's card list with the
merged sequence. -/

/-- The environment of one global sort: the live page state, the text
contents of the pagination links, and the `article.product-item` cards of
each fetched page (entry `k` is page `k + 2`; a missing entry models a
page whose fetch failed, contributing zero items, content.js 285–287). -/
structure Env where
  sys : SysState
  paginationTexts : List String
  fetchedPages : List (List CardState)
  deriving DecidableEq, Repr

/-- JS `String.prototype.trim`: strip leading and trailing whitespace
(modelled over the char list; JS also strips some exotic Unicode spaces,
which never carry digits and so cannot affect the pure-integer test). -/
def trimChars (l : List Char) : List Char :=
  ((l.dropWhile Char.isWhitespace).reverse.dropWhile Char.isWhitespace).reverse

/-- `text.trim().match(/^\d+$/)` (content.js 309–314): the trimmed link
text is a non-empty pure digit run. -/
def isPureInt (t : String) : Bool :=
  let u := trimChars t.data
  u ≠ [] && u.all Char.isDigit

/-- Pagination detection of `sortByUnitPriceGlobally` (content.js 305–314). -/
def hasPagination (env : Env) : Bool :=
  env.paginationTexts.any isPureInt

/-- `link.textContent.match(/\d+/)` + `parseInt` (content.js 229–231):
the first maximal digit run, if any. -/
def firstInt (t : String) : Option Nat :=
  let l := t.data.dropWhile fun c => !c.isDigit
  if l = [] then none else some (digitsToNat (l.takeWhile Char.isDigit))

/-- Maximum page detection of `fetchAllProducts` (content.js 225–236):
largest embedded integer over all pagination links, defaulting to 1. -/
def maxPage (env : Env) : Nat :=
  env.paginationTexts.foldl
    (fun m t =>
      match firstInt t with
      | some n => if n > m then n else m
      | none => m)
    1

/-- The cards of page `n` as `fetchAllProducts` sees them: page 1 from
the live DOM (content.js 244), later pages from the fetched-and-parsed
documents (content.js 271). -/
def pageCards (env : Env) (n : Nat) : List CardState :=
  if n = 1 then env.sys.cards
  else (env.fetchedPages.get? (n - 2)).getD []

/-- One aggregated product (content.js 248–254 / 275–281): the serialized
card snapshot plus its origin page number. -/
structure GProd where
  card : CardState
  page : Nat
  deriving DecidableEq, Repr

/-- `fetchAllProducts` (content.js 217–292): pages 1..maxPage processed
in ascending page order, each page's products appended in their on-page
order. -/
def fetchAllProducts (env : Env) : List GProd :=
  (List.range' 1 (maxPage env)).flatMap fun n =>
    (pageCards env n).map fun c => ⟨c, n⟩

/-- `comparator a b ≤ 0` for the global comparator (content.js 342–344):
`a.unitPrice - b.unitPrice` per direction, with JS coercing `null` to 0
(only ever applied to the priced partition). -/
def globalLe (ascending : Bool) (a b : GProd) : Bool :=
  if ascending then decide (a.card.unitPrice.getD 0 ≤ b.card.unitPrice.getD 0)
  else decide (b.card.unitPrice.getD 0 ≤ a.card.unitPrice.getD 0)

/-- `replaceCurrentPageProducts` (content.js 386–406): without a
`.product-list` container it logs and returns, changing nothing;
otherwise the existing cards are removed and the given products appended
in order. -/
def replaceCurrentPageProducts (s : SysState) (products : List GProd) :
    SysState :=
  if ¬ s.productListPresent then s
  else { s with cards := products.map (·.card) }

/-- `hidePagination` (content.js 361–367). -/
def hidePagination (s : SysState) : SysState :=
  { s with paginationHidden := true }

/-- `sortByUnitPriceGlobally` (content.js 299–358) as a state
transformer over the page environment. -/
def sortByUnitPriceGlobally (env : Env) (ascending : Bool) :
    Env × RunLog :=
  let s := { env.sys with currentSortState := some ⟨ascending, true⟩ }
  if ¬ hasPagination env then
    let r := sortByUnitPrice s ascending
    ({ env with sys := r.1 }, r.2)
  else
    let all := fetchAllProducts { env with sys := s }
    let nfetch := maxPage env - 1
    if all = [] then
      ({ env with sys := s },
       ⟨["Nije pronađeno proizvoda za sortiranje."],
        ["Učitavam sve proizvode sa svih stranica..."], false, nfetch⟩)
    else
      let withPrice := all.filter fun p => p.card.unitPrice.isSome
      let withoutPrice := all.filter fun p => p.card.unitPrice = none
      let sortedAll := withPrice.mergeSort (globalLe ascending) ++ withoutPrice
      let s2 := hidePagination (replaceCurrentPageProducts s sortedAll)
      let direction := if ascending then "najniža → najviša"
                       else "najviša → najniža"
      ({ env with sys := s2 },
       ⟨[],
        ["Učitavam sve proizvode sa svih stranica...",
         "Prikazano svih " ++ toString all.length ++
           " proizvoda sortirano po cijeni za j.m.: " ++ direction],
        false, nfetch⟩)

end Konzum

/-- C5: running the local Sort Engine twice in a row on an unchanged item
set (the DOM order of the cards is untouched by a run — only classes,
attributes and styles change — so the second run re-reads the same
discovery order, prices and nulls) produces exactly the state of running
it once: identical rank assignments, and an identical run log. -/
theorem C5_local_sort_idempotent (s : Konzum.SysState) (ascending : Bool) :
    Konzum.sortByUnitPrice (Konzum.sortByUnitPrice s ascending).1 ascending
      = Konzum.sortByUnitPrice s ascending := by
  by_cases hc : s.cards = []
  · simp [Konzum.sortByUnitPrice, hc]
  · by_cases hp : s.containerPresent = true
    · simp [Konzum.sortByUnitPrice, hc, hp, Konzum.applyRanks_eq_nil_iff,
        Konzum.applyRanks_applyRanks]
    · simp [Konzum.sortByUnitPrice, hc, hp]

namespace Konzum

/-- The local sorter never performs a network fetch. -/
theorem sortByUnitPrice_fetches (s : SysState) (ascending : Bool) :
    (sortByUnitPrice s ascending).2.fetches = 0 := by
  by_cases hc : s.cards = [] <;> by_cases hp : s.containerPresent = true <;>
    simp [sortByUnitPrice, hc, hp]

/-- The sort intent recorded before the pagination check is overwritten
by the local sorter's own intent, so the degraded global call equals a
plain local call. -/
theorem sortByUnitPrice_intent_irrelevant (s : SysState)
    (x : Option SortIntent) (ascending : Bool) :
    sortByUnitPrice { s with currentSortState := x } ascending =
      sortByUnitPrice s ascending := rfl

/-- `fetchAllProducts` reads only the card list, the pagination texts and
the fetched pages, so recording the sort intent first changes nothing. -/
theorem fetchAllProducts_intent_irrelevant (env : Env)
    (x : Option SortIntent) :
    fetchAllProducts { env with sys := { env.sys with currentSortState := x } }
      = fetchAllProducts env := rfl

theorem globalLe_trans (ascending : Bool) :
    ∀ a b c : GProd, globalLe ascending a b → globalLe ascending b c →
      globalLe ascending a c := by
  intro a b c hab hbc
  cases ascending <;> simp [globalLe] at hab hbc ⊢ <;> linarith

theorem globalLe_total (ascending : Bool) :
    ∀ a b : GProd, globalLe ascending a b || globalLe ascending b a := by
  intro a b
  cases ascending <;> simp [globalLe] <;> exact le_total _ _

/-- A fresh, unmarked card whose text yields price `p`. -/
def plainCard (p : Option ℚ) : CardState :=
  ⟨p, true, false, none, none, none, none⟩

/-- Live page state of the worked global-sort example: page 1 holds two
priced cards, 0.5 then 0.2, in discovery order. -/
def samplePage1 : SysState :=
  { currentSortState := none, maintainerInterval := false,
    containerObserver := false, styleTagPresent := false,
    containerPresent := true, productListPresent := true,
    paginationHidden := false,
    cards := [plainCard (some (1/2)), plainCard (some (1/5))] }

/-- The worked global-sort environment of the specification: pagination
links "1" and "2"; page 2 holds one priced card (0.3) and one card
without a price. -/
def sampleEnv : Env :=
  { sys := samplePage1, paginationTexts := ["1", "2"],
    fetchedPages := [[plainCard (some (3/10)), plainCard none]] }

end Konzum

namespace Konzum

/-- Aggregation result on the worked environment (used by witnesses). -/
theorem fetchAllProducts_sample_eval :
    fetchAllProducts sampleEnv =
    [⟨plainCard (some (1/2)), 1⟩, ⟨plainCard (some (1/5)), 1⟩,
     ⟨plainCard (some (3/10)), 2⟩, ⟨plainCard none, 2⟩] := by
  norm_num [fetchAllProducts, maxPage, pageCards, sampleEnv, samplePage1,
    firstInt, digitsToNat, List.range', List.flatMap]

/-- Full evaluation of the worked global sort: the page ends up showing
0.2, 0.3, 0.5, then the unpriced card, with pagination hidden, one page
fetched, and no maintainer installed. -/
theorem sortByUnitPriceGlobally_sample_eval :
    sortByUnitPriceGlobally sampleEnv true =
      ({ sampleEnv with sys :=
          { samplePage1 with
              currentSortState := some ⟨true, true⟩,
              paginationHidden := true,
              cards := [plainCard (some (1/5)), plainCard (some (3/10)),
                        plainCard (some (1/2)), plainCard none] } },
       ⟨[],
        ["Učitavam sve proizvode sa svih stranica...",
         "Prikazano svih 4 proizvoda sortirano po cijeni za j.m.: najniža → najviša"],
        false, 1⟩) := by
  rw [sortByUnitPriceGlobally]
  rw [if_neg (by decide)]
  rw [show fetchAllProducts { sampleEnv with sys :=
      { sampleEnv.sys with currentSortState := some ⟨true, true⟩ } }
    = fetchAllProducts sampleEnv from rfl]
  rw [fetchAllProducts_sample_eval]
  rw [if_neg (by simp)]
  norm_num [replaceCurrentPageProducts, hidePagination, globalLe, plainCard,
    sampleEnv, samplePage1, maxPage, firstInt, digitsToNat, List.filter,
    List.mergeSort, List.merge]
  decide

/-- A page environment with no `.product-list` container. -/
def sampleEnvNoList : Env :=
  { sampleEnv with sys := { samplePage1 with productListPresent := false } }

/-- A DOM on which every discovery strategy fails. -/
def emptyDom : Dom := ⟨[], [], [], [], []⟩

/-- A page state with no product cards and no live sort. -/
def emptySys : SysState := ⟨none, false, false, false, true, true, false, []⟩

/-- A page environment without pagination links. -/
def envNoPagination : Env := ⟨emptySys, [], []⟩

/-- A page state holding one previously sorted card (rank 0 applied). -/
def clearSample : SysState :=
  { currentSortState := some ⟨true, false⟩, maintainerInterval := true,
    containerObserver := true, styleTagPresent := true,
    containerPresent := true, productListPresent := true,
    paginationHidden := false,
    cards := [⟨none, true, true, some 0, some 0, some 0, some none⟩] }

end Konzum

/-- C3: for every multi-page global sort whose aggregate is non-empty and
whose page has a product-list container, the final card order is the
with-price items of the ENTIRE aggregated set sorted per the direction
flag, followed by all without-price items in their aggregate discovery
order; the aggregate itself concatenates pages 1..maxPage in ascending
page order; and on the worked instance (page 1: 0.5, 0.2; page 2: 0.3
and one unpriced) the ascending result is [0.2, 0.3, 0.5, unpriced]. -/
theorem C3_global_sort_final_order
    (env : Konzum.Env) (ascending : Bool)
    (hpag : Konzum.hasPagination env = true)
    (hne : Konzum.fetchAllProducts env ≠ [])
    (hpl : env.sys.productListPresent = true) :
    ((Konzum.sortByUnitPriceGlobally env ascending).1.sys.cards =
      (((Konzum.fetchAllProducts env).filter
          (fun p => p.card.unitPrice.isSome)).mergeSort
            (Konzum.globalLe ascending)).map (·.card) ++
        ((Konzum.fetchAllProducts env).filter
          (fun p => p.card.unitPrice = none)).map (·.card)) ∧
    (((Konzum.fetchAllProducts env).filter
        (fun p => p.card.unitPrice.isSome)).mergeSort
          (Konzum.globalLe ascending)).Perm
      ((Konzum.fetchAllProducts env).filter
        (fun p => p.card.unitPrice.isSome)) ∧
    (∀ (i j : Nat) (a b : Konzum.GProd), i < j →
      (((Konzum.fetchAllProducts env).filter
          (fun p => p.card.unitPrice.isSome)).mergeSort
            (Konzum.globalLe ascending))[i]? = some a →
      (((Konzum.fetchAllProducts env).filter
          (fun p => p.card.unitPrice.isSome)).mergeSort
            (Konzum.globalLe ascending))[j]? = some b →
      (ascending = true →
        a.card.unitPrice.getD 0 ≤ b.card.unitPrice.getD 0) ∧
      (ascending = false →
        b.card.unitPrice.getD 0 ≤ a.card.unitPrice.getD 0)) ∧
    (Konzum.fetchAllProducts env =
      (List.range' 1 (Konzum.maxPage env)).flatMap fun n =>
        (Konzum.pageCards env n).map fun c => ⟨c, n⟩) ∧
    ((Konzum.sortByUnitPriceGlobally Konzum.sampleEnv true).1.sys.cards.map
        (·.unitPrice) = [some (1/5), some (3/10), some (1/2), none]) := by
  refine ⟨?_, List.mergeSort_perm _ _, ?_, rfl, ?_⟩
  · obtain ⟨⟨cur, mi, co, stp, cp, plp, ph, cards⟩, pts, fps⟩ := env
    replace hpl : plp = true := hpl
    subst hpl
    simp only [Konzum.sortByUnitPriceGlobally, Konzum.fetchAllProducts,
      Konzum.pageCards, Konzum.maxPage] at hne ⊢
    rw [if_neg (by simp [hpag])]
    rw [if_neg hne]
    simp [Konzum.hidePagination, Konzum.replaceCurrentPageProducts]
  · have hpw := List.sorted_mergeSort (Konzum.globalLe_trans ascending)
      (Konzum.globalLe_total ascending)
      ((Konzum.fetchAllProducts env).filter (fun p => p.card.unitPrice.isSome))
    rw [List.pairwise_iff_getElem] at hpw
    intro i j a b hij ha hb
    rw [List.getElem?_eq_some_iff] at ha hb
    obtain ⟨hi, ha⟩ := ha
    obtain ⟨hj, hb⟩ := hb
    have h := hpw i j hi hj hij
    rw [ha, hb] at h
    cases ascending <;> simp_all [Konzum.globalLe]
  · rw [Konzum.sortByUnitPriceGlobally_sample_eval]
    rfl

/-- C3 witness: the worked environment (pagination links "1","2", four
aggregated products) instantiates every hypothesis, and the final order
is [0.2, 0.3, 0.5, unpriced]. -/
theorem C3_global_sort_final_order_witness :
    (Konzum.sortByUnitPriceGlobally Konzum.sampleEnv true).1.sys.cards.map
      (·.unitPrice) = [some (1/5), some (3/10), some (1/2), none] :=
  (C3_global_sort_final_order Konzum.sampleEnv true (by decide) (by decide)
    rfl).2.2.2.2

/-- C6: when no pagination link has a pure-integer trimmed text, the
global sort variant behaves exactly as the local sort variant with the
same direction flag (identical final state and run log) and performs no
network fetch. -/
theorem C6_global_degrades_to_local
    (env : Konzum.Env) (ascending : Bool)
    (h : Konzum.hasPagination env = false) :
    Konzum.sortByUnitPriceGlobally env ascending =
      ({ env with sys := (Konzum.sortByUnitPrice env.sys ascending).1 },
       (Konzum.sortByUnitPrice env.sys ascending).2) ∧
    (Konzum.sortByUnitPriceGlobally env ascending).2.fetches = 0 := by
  have heq : Konzum.sortByUnitPriceGlobally env ascending =
      ({ env with sys := (Konzum.sortByUnitPrice env.sys ascending).1 },
       (Konzum.sortByUnitPrice env.sys ascending).2) := by
    rw [Konzum.sortByUnitPriceGlobally]
    rw [if_pos (by simp [h])]
    rw [Konzum.sortByUnitPrice_intent_irrelevant]
  exact ⟨heq, by rw [heq]; exact Konzum.sortByUnitPrice_fetches _ _⟩

/-- C6 witness: a page without pagination links; the global entry point
equals the local one and fetches nothing. -/
theorem C6_global_degrades_to_local_witness :
    Konzum.sortByUnitPriceGlobally Konzum.envNoPagination true =
      ({ Konzum.envNoPagination with
          sys := (Konzum.sortByUnitPrice Konzum.envNoPagination.sys true).1 },
       (Konzum.sortByUnitPrice Konzum.envNoPagination.sys true).2) ∧
    (Konzum.sortByUnitPriceGlobally Konzum.envNoPagination true).2.fetches
      = 0 :=
  C6_global_degrades_to_local Konzum.envNoPagination true rfl

/-- C7 (amended): a user-triggered local sort that finds items (with the
cards' shared container present) runs the Sort Engine, assigns ranks and
enters Watching — the maintainer interval and the container observer are
installed; the global variant likewise enters Watching when it degrades
to the local sort, but on the multi-page path it installs no
drift-monitoring at all. -/
theorem C7_amended_watching_after_sort :
    (∀ (s : Konzum.SysState) (ascending : Bool),
      s.cards ≠ [] → s.containerPresent = true →
      (Konzum.sortByUnitPrice s ascending).2.installedWatch = true ∧
      (Konzum.sortByUnitPrice s ascending).1.maintainerInterval = true ∧
      (Konzum.sortByUnitPrice s ascending).1.containerObserver = true) ∧
    (∀ (env : Konzum.Env) (ascending : Bool),
      Konzum.hasPagination env = true →
      (Konzum.sortByUnitPriceGlobally env ascending).2.installedWatch
        = false) := by
  constructor
  · intro s ascending hc hp
    refine ⟨?_, ?_, ?_⟩ <;> simp [Konzum.sortByUnitPrice, hc, hp]
  · intro env ascending hpag
    by_cases hall : Konzum.fetchAllProducts { env with sys :=
        { env.sys with currentSortState := some ⟨ascending, true⟩ } } = [] <;>
      simp [Konzum.sortByUnitPriceGlobally, hpag, hall]

/-- C7 witness for the amended claim: on the one-card page state the
local sort installs both monitors, and on the worked multi-page
environment the global sort installs none. -/
theorem C7_amended_watching_after_sort_witness :
    (Konzum.sortByUnitPrice Konzum.clearSample true).2.installedWatch
      = true ∧
    (Konzum.sortByUnitPriceGlobally Konzum.sampleEnv true).2.installedWatch
      = false := by
  have h := C7_amended_watching_after_sort
  exact ⟨(h.1 Konzum.clearSample true (by decide) rfl).1,
    h.2 Konzum.sampleEnv true (by decide)⟩

/-- C7 counterexample: in the worked multi-page environment the Item
Locator finds items (the aggregate is non-empty, the live page has
cards), the user-triggered global sort completes, yet no drift-monitoring
is installed afterwards — no maintainer interval, no container observer —
so the claim that every user-triggered sort (local or global) enters
Watching fails. -/
theorem C7_counterexample_global_no_watch :
    Konzum.sampleEnv.sys.cards ≠ [] ∧
    Konzum.fetchAllProducts Konzum.sampleEnv ≠ [] ∧
    (Konzum.sortByUnitPriceGlobally Konzum.sampleEnv true).2.installedWatch
      = false ∧
    (Konzum.sortByUnitPriceGlobally
      Konzum.sampleEnv true).1.sys.maintainerInterval = false ∧
    (Konzum.sortByUnitPriceGlobally
      Konzum.sampleEnv true).1.sys.containerObserver = false := by
  refine ⟨by decide, by decide, ?_, ?_, ?_⟩ <;>
    rw [Konzum.sortByUnitPriceGlobally_sample_eval] <;> rfl

/-- C8 (amended): selecting a different ordering criterion clears the
sort intent, cancels the maintainer interval and strips the
`konzum-sorted`/`konzum-sort-*` classes from the cards, after which
neither an observer firing nor an interval tick re-applies anything even
if the tree mutates; but the container observer is left connected (merely
inert), the injected style tag stays in the head, and the
`data-sort-order` attributes and inline `order` styles stay on the
cards. -/
theorem C8_amended_clear_halts_reapplication (s : Konzum.SysState) :
    (Konzum.clearSortSelection s).currentSortState = none ∧
    (Konzum.clearSortSelection s).maintainerInterval = false ∧
    (∀ c ∈ (Konzum.clearSortSelection s).cards, c.konzumSorted = false) ∧
    Konzum.observerFire (Konzum.clearSortSelection s)
      = Konzum.clearSortSelection s ∧
    Konzum.maintainerTick (Konzum.clearSortSelection s)
      = Konzum.clearSortSelection s ∧
    (Konzum.clearSortSelection s).containerObserver = s.containerObserver ∧
    (Konzum.clearSortSelection s).styleTagPresent = s.styleTagPresent ∧
    (Konzum.clearSortSelection s).cards.map (·.dataSortOrder)
      = s.cards.map (·.dataSortOrder) ∧
    (Konzum.clearSortSelection s).cards.map (·.inlineOrder)
      = s.cards.map (·.inlineOrder) := by
  refine ⟨rfl, rfl, ?_, ?_, ?_, rfl, rfl, ?_, ?_⟩
  · intro c hc
    rw [Konzum.clearSortSelection] at hc
    simp only [List.mem_map] at hc
    obtain ⟨a, -, rfl⟩ := hc
    by_cases ha : a.konzumSorted <;> simp [ha]
  · rw [Konzum.observerFire]
    split <;> rfl
  · rfl
  · rw [Konzum.clearSortSelection]
    simp only [List.map_map]
    refine List.map_congr_left ?_
    intro a _
    by_cases ha : a.konzumSorted <;> simp [ha]
  · rw [Konzum.clearSortSelection]
    simp only [List.map_map]
    refine List.map_congr_left ?_
    intro a _
    by_cases ha : a.konzumSorted <;> simp [ha]

/-- C8 witness for the amended claim: clearing the one-sorted-card state
leaves the intent empty, the interval cancelled, and the card's
`konzum-sorted` class removed. -/
theorem C8_amended_clear_halts_reapplication_witness :
    (Konzum.clearSortSelection Konzum.clearSample).currentSortState = none ∧
    (⟨none, true, false, none, some 0, some 0, some none⟩ :
        Konzum.CardState).konzumSorted = false := by
  have h := C8_amended_clear_halts_reapplication Konzum.clearSample
  exact ⟨h.1, h.2.2.1 ⟨none, true, false, none, some 0, some 0, some none⟩
    (by decide)⟩

/-- C8 counterexample: clearing the sort on a state with one sorted card
does not remove the `data-sort-order`/`data-unit-price` attributes or the
inline `order` style, does not remove the injected style tag, and leaves
the mutation observer connected — so the claim that clearing removes all
rank markers/attributes and derived style rules and halts all
timers/observers fails on this input. -/
theorem C8_counterexample_clear_leaves_markers :
    (Konzum.clearSortSelection Konzum.clearSample).containerObserver
      = true ∧
    (Konzum.clearSortSelection Konzum.clearSample).styleTagPresent = true ∧
    (Konzum.clearSortSelection Konzum.clearSample).cards.map
      (·.dataSortOrder) = [some 0] ∧
    (Konzum.clearSortSelection Konzum.clearSample).cards.map
      (·.inlineOrder) = [some 0] ∧
    (Konzum.clearSortSelection Konzum.clearSample).cards.map
      (·.dataUnitPrice) = [some none] := by
  decide

/-- C9: when every discovery strategy fails its plausibility guard the
Item Locator returns the empty sequence (and cannot throw — it is a total
function); and a sort triggered on that empty card set surfaces exactly
one user-visible "nothing to sort" alert, shows no other notification,
installs no monitoring, and leaves the cards untouched. -/
theorem C9_empty_discovery_alert_no_watching
    (d : Konzum.Dom) (s : Konzum.SysState) (ascending : Bool)
    (h1 : d.articleProductItems.length ≤ 3)
    (h2 : d.altItems.length ≤ 3)
    (h3 : d.linkDerivedCards = [])
    (h4 : ∀ r ∈ d.selectorResults, r.1 = [] ∨ r.2 = false)
    (h5 : ∀ r ∈ d.containerResults, r.1.length ≤ 3 ∨ r.2 = false)
    (hs : s.cards = Konzum.getProductCards d) :
    Konzum.getProductCards d = [] ∧
    (Konzum.sortByUnitPrice s ascending).2.alerts.length = 1 ∧
    (Konzum.sortByUnitPrice s ascending).2.notifications = [] ∧
    (Konzum.sortByUnitPrice s ascending).2.installedWatch = false ∧
    (Konzum.sortByUnitPrice s ascending).1.cards = s.cards := by
  have hempty : Konzum.getProductCards d = [] := by
    have hsel : d.selectorResults.find?
        (fun r => decide (r.1.length > 0) && r.2) = none := by
      rw [List.find?_eq_none]
      intro r hr
      rcases h4 r hr with h | h <;> simp [h]
    have hcon : d.containerResults.find?
        (fun r => decide (r.1.length > 3) && r.2) = none := by
      rw [List.find?_eq_none]
      intro r hr
      rcases h5 r hr with h | h <;> simp [h, Nat.not_lt.mpr]
    rw [Konzum.getProductCards, if_neg (by omega), if_neg (by omega),
      if_neg (by simp [h3]), hsel, hcon]
  rw [hempty] at hs
  exact ⟨hempty, by simp [Konzum.sortByUnitPrice, hs],
    by simp [Konzum.sortByUnitPrice, hs],
    by simp [Konzum.sortByUnitPrice, hs],
    by simp [Konzum.sortByUnitPrice, hs]⟩

/-- C9 witness: the empty DOM fails every strategy; the triggered sort on
the resulting empty card set alerts once and installs nothing. -/
theorem C9_empty_discovery_alert_no_watching_witness :
    Konzum.getProductCards Konzum.emptyDom = [] ∧
    (Konzum.sortByUnitPrice Konzum.emptySys true).2.alerts.length = 1 ∧
    (Konzum.sortByUnitPrice Konzum.emptySys true).2.installedWatch
      = false := by
  have h := C9_empty_discovery_alert_no_watching Konzum.emptyDom
    Konzum.emptySys true (by decide) (by decide) rfl (by simp [Konzum.emptyDom])
    (by simp [Konzum.emptyDom]) rfl
  exact ⟨h.1, h.2.1, h.2.2.2.1⟩

/-- C10: when no `.product-list` container exists, applying a global
sort's ordered sequence is a silent no-op — `replaceCurrentPageProducts`
logs and returns without modifying the state; within a full multi-page
global sort the card list is left untouched and no alert is raised, even
though the in-progress notification was already shown. -/
theorem C10_replace_without_container_noop
    (s : Konzum.SysState) (products : List Konzum.GProd)
    (env : Konzum.Env) (ascending : Bool)
    (h : s.productListPresent = false)
    (henv : env.sys.productListPresent = false)
    (hpag : Konzum.hasPagination env = true)
    (hne : Konzum.fetchAllProducts env ≠ []) :
    Konzum.replaceCurrentPageProducts s products = s ∧
    (Konzum.sortByUnitPriceGlobally env ascending).1.sys.cards
      = env.sys.cards ∧
    (Konzum.sortByUnitPriceGlobally env ascending).2.alerts = [] ∧
    (Konzum.sortByUnitPriceGlobally env ascending).2.notifications ≠ [] := by
  constructor
  · simp [Konzum.replaceCurrentPageProducts, h]
  · obtain ⟨⟨cur, mi, co, stp, cp, plp, ph, cards⟩, pts, fps⟩ := env
    replace henv : plp = false := henv
    subst henv
    simp only [Konzum.sortByUnitPriceGlobally, Konzum.fetchAllProducts,
      Konzum.pageCards, Konzum.maxPage] at hne ⊢
    rw [if_neg (by simp [hpag]), if_neg hne]
    refine ⟨?_, ?_, ?_⟩ <;>
      simp [Konzum.hidePagination, Konzum.replaceCurrentPageProducts]

/-- C10 witness: the worked environment without a `.product-list`
container; the replacement is a no-op, the cards stay, no alert. -/
theorem C10_replace_without_container_noop_witness :
    Konzum.replaceCurrentPageProducts
      { Konzum.samplePage1 with productListPresent := false } [] =
      { Konzum.samplePage1 with productListPresent := false } ∧
    (Konzum.sortByUnitPriceGlobally Konzum.sampleEnvNoList true).1.sys.cards
      = Konzum.sampleEnvNoList.sys.cards ∧
    (Konzum.sortByUnitPriceGlobally Konzum.sampleEnvNoList true).2.alerts
      = [] := by
  have h := C10_replace_without_container_noop
    { Konzum.samplePage1 with productListPresent := false } []
    Konzum.sampleEnvNoList true rfl rfl (by decide) (by decide)
  exact ⟨h.1, h.2.1, h.2.2.1⟩
